import Mathlib

/-!
# Verification of the coin-news Query Orchestration Core

A shallow embedding, in Lean 4, of the query-orchestration pipeline of the
`coin-news` repository, together with theorems settling the specification
claims about it.

Conventions of the embedding:

* Python floats are modelled as `ℚ` (the code only ever compares and copies
  them; no float-specific behaviour is relied upon by any claim).
* Python `dict`s with a fixed key set are modelled as structures whose fields
  are `Option`-typed when the code may find the key absent or `None`.
* `collections.defaultdict(list)` is modelled as an insertion-ordered
  association list (`List (String × List α)`), matching the insertion-order
  guarantee of Python dicts.
* A Python `set` is modelled as a duplicate-free list in first-insertion
  order.  CPython enumerates a set in a hash-dependent order; the model fixes
  one admissible enumeration (first-insertion), which is what the
  order-sensitive theorems below refer to.
* Fallible calls return `Except String α`; external effects (MongoDB,
  ChromaDB, Redis, the language model) are oracles passed in as explicit
  function parameters, so the embedded pipeline is a pure function of the
  plan and of the oracle responses.
-/

set_option maxRecDepth 8000

namespace CoinNews

/-! ## Data model

`PriceData` / `PriceHourlyData` rows (src/app/schemas/price.py).  The
executor never inspects row contents, it only routes whole lists, so the two
row shapes live in one inductive. -/

inductive PriceRow where
  | daily (date : String) (close : ℚ) (time : Option Int)
  | hourly (time : Option Int) (high low open_price close_price : Option ℚ)
deriving DecidableEq, Repr

/-- `VectorNewsResult` (src/app/schemas/vector_news.py). -/
structure NewsChunk where
  title : Option String := none
  url : Option String := none
  link : Option String := none
  created_at : Option String := none
  publish_date : Option Int := none
  publish_date_readable : Option String := none
  source : Option String := none
  query : Option String := none
  distance : Option ℚ := none
  similarity_score : Option ℚ := none
  document : Option String := none
deriving DecidableEq, Repr

/-- The `_search_params` meta dictionary attached by the planner to every
`make_semantic_query` tool call (src/app/agent/query_planning_agent.py,
consumed in src/app/agent/executor_agent.py). -/
structure SearchParams where
  top_k : Option Nat := none
  similarity_threshold : Option ℚ := none
  pivot_date : Option Int := none
  date_range : Option String := none
deriving DecidableEq, Repr

/-- The argument dictionary of a tool call.  One structure covers every
argument key the pipeline ever reads or forwards; a key the call does not
carry is `none` (resp. `[]`).  The meta key `_search_params` is the
`search_params` field. -/
structure Arguments where
  coin_name : Option String := none
  pivot_date : Option Int := none
  range_type : Option String := none
  direction : Option String := none
  coin_names : List String := []
  intent_type : Option String := none
  event_keywords : List String := []
  event_magnitude : Option String := none
  custom_context : Option String := none
  query : Option String := none
  top_k : Option Nat := none
  similarity_threshold : Option ℚ := none
  date_range : Option String := none
  source : Option String := none
  title : Option String := none
  document : Option String := none
  price_data : List PriceRow := []
  news_chunks : List NewsChunk := []
  analysis_focus : Option String := none
  focus_topic : Option String := none
  price_summary : Option String := none
  news_summary : Option String := none
  user_query : Option String := none
  search_params : Option SearchParams := none
deriving DecidableEq, Repr

/-- Modelled from the spec: `app.schemas.query_plan` is imported by the
planner and the executor but the module itself is not present under `src/`;
the spec (§3) gives `ToolCall = (tool_name, arguments)`. -/
structure ToolCall where
  tool_name : String
  arguments : Arguments
deriving DecidableEq, Repr

/-- Modelled from the spec: `app.schemas.query_plan` is not present under
`src/`; the spec (§3) gives `QueryPlan = (intent_type, pivot_time_epoch,
[ToolCall])`, matching the constructor calls in
src/app/agent/query_planning_agent.py. -/
structure QueryPlan where
  intent_type : String
  pivot_time : Int
  query_plan : List ToolCall
deriving DecidableEq, Repr

/-- `PlanResult` as constructed at the end of `ExecutorAgent.do_plan`
(src/app/agent/executor_agent.py).  The field list is the union of the
keyword arguments passed at the construction site; the repository's own
tests (src/test_executor_oct.py) read `price_summary`, `news_summary` and
`generated_queries` back from it.  (The stale schema variant in
src/app/schemas/plan_result.py omits the summary fields.) -/
structure PlanResult where
  intent_type : String
  collected_coin_prices : List (String × List PriceRow)
  collected_coin_hourly_prices : List (String × List PriceRow)
  collected_news_chunks : List NewsChunk
  coin_names : List String
  price_summary : Option String
  news_summary : Option String
  combined_summary : Option String
  generated_queries : List String
  total_actions : Nat
  successful_actions : Nat
  failed_actions : Nat
  errors : List String
deriving DecidableEq, Repr

/-! ## Small Python-collection helpers -/

/-- Truthiness of an optional Python string (`None` and `""` are falsy). -/
def truthyStr : Option String → Bool
  | none => false
  | some s => !s.isEmpty

/-- `x or default` on an optional Python string. -/
def orDefault (o : Option String) (d : String) : String :=
  match o with
  | some s => if s.isEmpty then d else s
  | none => d

/-- Association-list lookup (Python `d[k]` / `k in d`). -/
def assocFind (m : List (String × α)) (k : String) : Option α :=
  match m with
  | [] => none
  | (k', v) :: rest => if k' = k then some v else assocFind rest k

/-- `defaultdict(list)`: `d[k].extend(v)`, creating the key when absent
(also when `v` is empty, as `defaultdict.__getitem__` does). -/
def extendAt (m : List (String × List α)) (k : String) (v : List α) :
    List (String × List α) :=
  match m with
  | [] => [(k, v)]
  | (k', l) :: rest =>
      if k' = k then (k', l ++ v) :: rest else (k', l) :: extendAt rest k v

/-- `set.add`, under the first-insertion enumeration of the model. -/
def insertOnce (s : List String) (x : String) : List String :=
  if s.contains x then s else s ++ [x]

/-- `list(set(xs))`, under the first-insertion enumeration of the model. -/
def pySetList (xs : List String) : List String :=
  xs.foldl insertOnce []

/-- Python `sorted` on strings (lexicographic ascending). -/
def sortStrings (xs : List String) : List String :=
  xs.mergeSort (fun a b => a ≤ b)

/-! ## Analyzer (src/app/agent/query_analyzer_agent.py)

`QueryAnalyzerService.analyze_query`: the length guard is the code under
verification; the Claude round-trip behind it is an oracle returning either
a tool-use payload (already validated) or nothing. -/

inductive AnalyzeError where
  /-- `ValueError("Query too long (max 200 characters)")` — the spec's
  `QueryTooLong`. -/
  | queryTooLong
  /-- `ValueError("No tool use found in response")`. -/
  | noToolUse
deriving DecidableEq, Repr

/-- `self.max_query_length = 200`. -/
def max_query_length : Nat := 200

/-- Flattened `NormalizedQuery` dict as read by the planner via nested
`.get` calls (src/app/agent/query_planning_agent.py): each field is the
value found at the corresponding nested key, `none` when the key (or its
enclosing dict) is absent. -/
structure NormalizedQueryDict where
  intent_type : Option String := none
  target_coin : Option (List String) := none
  event_magnitude : Option String := none
  event_keywords : Option (List String) := none
  goal_depth : Option String := none
  time_range_pivot_time : Option String := none
  time_range_relative : Option String := none
deriving DecidableEq, Repr

/-- `QueryAnalyzerService.analyze_query`, with the LLM round-trip as an
oracle.  The length guard precedes everything else. -/
def analyze_query (llm : String → Option NormalizedQueryDict) (query : String) :
    Except AnalyzeError NormalizedQueryDict :=
  if query.length > max_query_length then
    .error .queryTooLong
  else
    match llm query with
    | some nq => .ok nq
    | none => .error .noToolUse

/-! ## Price tool (src/app/tools/price_tools.py and
src/app/repository/price_repository.py)

`get_coin_price` calls `repo.find_by_range(...)` on a `PriceRepository`
instance.  Attribute access on a Python object succeeds only for attributes
the class actually defines; the methods defined by `PriceRepository` are
transcribed below. -/

/-- The data methods defined by `class PriceRepository`
(src/app/repository/price_repository.py). -/
def priceRepositoryMethodNames : List String :=
  [ "find_by_coin_name_with_hour_range"
  , "find_by_coin_name_with_oneday"
  , "find_by_coin_name_with_week_before"
  , "find_by_coin_name_with_week_after"
  , "find_by_coin_name_with_month_before"
  , "find_by_coin_name_with_month_after"
  , "find_by_coin_name_with_year"
  , "find_by_coin" ]

/-- Python attribute lookup: `none` means `AttributeError`. -/
def lookupMethod (methods : List String) (attr : String) : Option String :=
  if methods.contains attr then some attr else none

inductive GetCoinPriceResult where
  | rows (rs : List PriceRow)
  | raised (err : String)
deriving DecidableEq, Repr

/-- `get_coin_price` (src/app/tools/price_tools.py): builds a
`PriceRepository` and calls `repo.find_by_range(coin_name, pivot_date,
range_type, direction)`.  The `rows` branch is unreachable because
`PriceRepository` defines no `find_by_range` method. -/
def get_coin_price (coin_name : String) (pivot_date : Int)
    (range_type : String := "week") (direction : String := "before") :
    GetCoinPriceResult :=
  match lookupMethod priceRepositoryMethodNames "find_by_range" with
  | some _ =>
      -- unreachable (`find_by_range` is not among the defined methods);
      -- there is no body in the source to translate
      .rows []
  | none =>
      .raised ("AttributeError: 'PriceRepository' object has no attribute " ++
        "'find_by_range' (called with " ++ coin_name ++ ", " ++
        toString pivot_date ++ ", " ++ range_type ++ ", " ++ direction ++ ")")

/-! ## Planner (src/app/agent/query_planning_agent.py) -/

/-- One entry of `QUERY_PERSPECTIVES`. -/
structure Perspective where
  custom_context : String
  event_keywords : List String
deriving DecidableEq, Repr

/-- `QUERY_PERSPECTIVES["price_reason"]`. -/
def priceReasonPerspectives : List Perspective :=
  [ ⟨"직접적인 가격 변동 원인", ["급등", "급락", "상승", "하락"]⟩
  , ⟨"시장 환경 및 거시경제 영향", ["시장", "금리", "달러", "유동성"]⟩
  , ⟨"호재 이벤트 분석", ["ETF", "승인", "기관투자", "채택"]⟩
  , ⟨"규제 및 정책 변화", ["규제", "SEC", "정책", "법안"]⟩
  , ⟨"기술적 요인 분석", ["반감기", "채굴", "해시레이트", "네트워크"]⟩ ]

/-- `QUERY_PERSPECTIVES["market_trend"]`. -/
def marketTrendPerspectives : List Perspective :=
  [ ⟨"전반적인 시장 동향", ["시장", "추세", "동향"]⟩
  , ⟨"거래량 및 투자자 동향", ["거래량", "투자자", "매수", "매도"]⟩
  , ⟨"기관 및 대형 투자자 움직임", ["기관", "고래", "대량"]⟩ ]

/-- `QUERY_PERSPECTIVES["news_summary"]`. -/
def newsSummaryPerspectives : List Perspective :=
  [ ⟨"주요 뉴스 이슈", ["뉴스", "소식", "발표"]⟩
  , ⟨"프로젝트 업데이트", ["업데이트", "개발", "로드맵"]⟩
  , ⟨"파트너십 및 협력", ["파트너십", "협력", "제휴"]⟩
  , ⟨"거래소 관련 소식", ["거래소", "상장", "입출금"]⟩ ]

/-- `QUERY_PERSPECTIVES.get intent`. -/
def queryPerspectives (intent : String) : Option (List Perspective) :=
  if intent = "price_reason" then some priceReasonPerspectives
  else if intent = "market_trend" then some marketTrendPerspectives
  else if intent = "news_summary" then some newsSummaryPerspectives
  else none

structure DepthParams where
  top_k : Nat
  similarity_threshold : ℚ
deriving DecidableEq, Repr

/-- `DEPTH_PARAMS.get depth`. -/
def depthParams (depth : String) : Option DepthParams :=
  if depth = "short" then some ⟨10, 1/10⟩
  else if depth = "medium" then some ⟨15, 0⟩
  else if depth = "deep" then some ⟨25, -(1/5)⟩
  else none

/-- `RELATIVE_TO_RANGE.get rel`. -/
def relativeToRange (rel : String) : Option String :=
  if rel = "24h" then some "day"
  else if rel = "7d" then some "week"
  else if rel = "1m" then some "month"
  else if rel = "ytd" then some "year"
  else if rel = "all" then some "year"
  else none

/-- `magnitude_map.get(mag, "any")` with `magnitude_map = {"big": "surge",
"small": "plunge"}`. -/
def magnitudeMap (mag : String) : String :=
  if mag = "big" then "surge" else if mag = "small" then "plunge" else "any"

/-! Calendar arithmetic for `_calculate_pivot_time`, which parses a
`YYYYMMDD` string with `datetime.strptime` and converts it to a UTC epoch. -/

def isLeapYear (y : Int) : Bool :=
  (y % 4 == 0 && y % 100 != 0) || y % 400 == 0

def daysInMonth (y m : Int) : Int :=
  if m = 2 then (if isLeapYear y then 29 else 28)
  else if m = 4 ∨ m = 6 ∨ m = 9 ∨ m = 11 then 30
  else 31

/-- Days since 1970-01-01 of a proleptic-Gregorian date (civil-days
algorithm). -/
def daysFromCivil (y m d : Int) : Int :=
  let y := if m ≤ 2 then y - 1 else y
  let era := (if 0 ≤ y then y else y - 399) / 400
  let yoe := y - era * 400
  let mp := (m + 9) % 12
  let doy := (153 * mp + 2) / 5 + d - 1
  let doe := yoe * 365 + yoe / 4 - yoe / 100 + doy
  era * 146097 + doe - 719468

/-- `datetime.strptime(s, "%Y%m%d")` followed by
`.replace(tzinfo=utc).timestamp()`: `none` on a parse failure
(`ValueError`). -/
def parseYYYYMMDDEpoch (s : String) : Option Int :=
  if s.length = 8 ∧ s.all Char.isDigit then
    match (s.take 4).toNat?, ((s.drop 4).take 2).toNat?, (s.drop 6).toNat? with
    | some y, some m, some d =>
        if 1 ≤ m ∧ m ≤ 12 ∧ 1 ≤ d ∧ (d : Int) ≤ daysInMonth y m then
          some (86400 * daysFromCivil y m d)
        else none
    | _, _, _ => none
  else none

/-- `QueryPlanningAgent._calculate_pivot_time`.  `nowMidnight` is the UTC
midnight of the wall-clock day (`datetime.now(utc).replace(hour=0, ...)`). -/
def calculate_pivot_time (nowMidnight : Int) (nq : NormalizedQueryDict) : Int :=
  match nq.time_range_pivot_time with
  | none => nowMidnight
  | some s =>
      if s = "today" then nowMidnight
      else
        match parseYYYYMMDDEpoch s with
        | some t => t
        | none => nowMidnight

inductive PlannerError where
  /-- `HTTPException(400, {"error": "UNKNOWN_INTENT", ...})`. -/
  | unknownIntent
deriving DecidableEq, Repr

/-- `QueryPlanningAgent.make_plan`. -/
def make_plan (nowMidnight : Int) (nq : NormalizedQueryDict) :
    Except PlannerError QueryPlan :=
  let intent_type := nq.intent_type.getD "unknown"
  if intent_type = "unknown" then
    .error .unknownIntent
  else
    let coin_names := nq.target_coin.getD ["BTC"]
    let event_magnitude := nq.event_magnitude
    let base_keywords := nq.event_keywords.getD []
    let depth := nq.goal_depth.getD "medium"
    let relative := nq.time_range_relative.getD "1m"
    let pivot_time := calculate_pivot_time nowMidnight nq
    let priceCalls : List ToolCall :=
      if intent_type = "price_reason" ∨ intent_type = "market_trend" then
        let range_type := (relativeToRange relative).getD "month"
        let direction := if intent_type = "price_reason" then "both" else "before"
        coin_names.map (fun coin =>
          { tool_name := "get_coin_price"
          , arguments :=
            { coin_name := some coin
            , pivot_date := some pivot_time
            , range_type := some range_type
            , direction := some direction } })
      else []
    let perspectives := (queryPerspectives intent_type).getD newsSummaryPerspectives
    let dp := (depthParams depth).getD ⟨15, 0⟩
    let tool_magnitude : Option String :=
      if truthyStr event_magnitude then
        some (magnitudeMap (event_magnitude.getD ""))
      else none
    let searchCalls : List ToolCall :=
      perspectives.map (fun p =>
        { tool_name := "make_semantic_query"
        , arguments :=
          { coin_names := coin_names
          , intent_type := some intent_type
          , event_keywords := pySetList (base_keywords ++ p.event_keywords)
          , event_magnitude := tool_magnitude
          , custom_context := some p.custom_context
          , search_params := some (
            { top_k := some dp.top_k
            , similarity_threshold := some dp.similarity_threshold
            , pivot_date := some pivot_time
            , date_range := some ((relativeToRange relative).getD "month") }) } })
    .ok { intent_type := intent_type
        , pivot_time := pivot_time
        , query_plan := priceCalls ++ searchCalls }

/-! ## Executor (src/app/agent/executor_agent.py)

The tool bodies are external effects (MongoDB, ChromaDB, Anthropic); the
executor is embedded as a pure function of the plan and of a `ToolBehavior`
oracle assigning a deterministic outcome (`.ok` result or `.error`, i.e. a
raised exception) to every invocation, keyed by the tool's cleaned argument
dictionary. -/

inductive ToolResult where
  | prices (rows : List PriceRow)
  | text (s : String)
  | news (chunks : List NewsChunk)
  | queries (qs : List String)
deriving DecidableEq, Repr

/-- One deterministic outcome per registered tool and argument dictionary. -/
structure ToolBehavior where
  getCoinPrice : Arguments → Except String (List PriceRow)
  makeSemanticQuery : Arguments → Except String String
  semanticSearch : Arguments → Except String (List NewsChunk)
  extractQueriesFromNews : Arguments → Except String (List String)
  summarizePriceData : Arguments → Except String String
  summarizeNewsChunks : Arguments → Except String String
  summarizeCombined : Arguments → Except String String

/-- `_execute_tool` step 1: strip meta arguments (keys starting with `_`;
the only one is `_search_params`). -/
def stripMeta (a : Arguments) : Arguments :=
  { a with search_params := none }

/-- `ExecutorAgent._execute_tool`: registry dispatch by tool name; an
unregistered name raises `ValueError(f"Tool {tool_name} not found")`. -/
def execute_tool (b : ToolBehavior) (tool_name : String) (a : Arguments) :
    Except String ToolResult :=
  let clean := stripMeta a
  if tool_name = "get_coin_price" then (b.getCoinPrice clean).map .prices
  else if tool_name = "make_semantic_query" then
    (b.makeSemanticQuery clean).map .text
  else if tool_name = "semantic_search" then (b.semanticSearch clean).map .news
  else if tool_name = "extract_queries_from_news" then
    (b.extractQueriesFromNews clean).map .queries
  else if tool_name = "summarize_price_data" then
    (b.summarizePriceData clean).map .text
  else if tool_name = "summarize_news_chunks" then
    (b.summarizeNewsChunks clean).map .text
  else if tool_name = "summarize_combined" then
    (b.summarizeCombined clean).map .text
  else .error ("Tool " ++ tool_name ++ " not found")

/-- Mutable locals of the `do_plan` Step-1 loop. -/
structure ExecState where
  collected_coin_prices : List (String × List PriceRow) := []
  collected_coin_hourly_prices : List (String × List PriceRow) := []
  collected_news_chunks : List NewsChunk := []
  generated_queries : List String := []
  executed_queries : List String := []
  coin_names_set : List String := []
  errors : List String := []
  successful_actions : Nat := 0
  failed_actions : Nat := 0
deriving DecidableEq, Repr

/-- The argument dictionary of the auto-chained `semantic_search` call
built from `_search_params` (executor Step 1, `make_semantic_query`
branch). -/
def chainedSearchArgs (query_string : String) (sp : SearchParams) : Arguments :=
  { query := some query_string
  , top_k := some (sp.top_k.getD 15)
  , similarity_threshold := some (sp.similarity_threshold.getD (13/20))
  , pivot_date := sp.pivot_date
  , date_range := some (sp.date_range.getD "month") }

/-- One iteration of the `do_plan` Step-1 loop over a declared `ToolCall`. -/
def stepCall (b : ToolBehavior) (st : ExecState) (tc : ToolCall) : ExecState :=
  match execute_tool b tc.tool_name tc.arguments with
  | .error e =>
      { st with
        errors := st.errors ++ ["Error executing " ++ tc.tool_name ++ ": " ++ e]
        failed_actions := st.failed_actions + 1 }
  | .ok res =>
      let st := { st with successful_actions := st.successful_actions + 1 }
      if tc.tool_name = "get_coin_price" then
        match res with
        | .prices rows =>
            let coin := tc.arguments.coin_name.getD "UNKNOWN"
            let range_type := tc.arguments.range_type.getD "week"
            let st := { st with coin_names_set := insertOnce st.coin_names_set coin }
            if range_type = "hour" then
              { st with collected_coin_hourly_prices :=
                  extendAt st.collected_coin_hourly_prices coin rows }
            else
              { st with collected_coin_prices :=
                  extendAt st.collected_coin_prices coin rows }
        | _ => st
      else if tc.tool_name = "make_semantic_query" then
        match res with
        | .text query_string =>
            let st := { st with executed_queries := st.executed_queries ++ [query_string] }
            let sp := (tc.arguments.search_params).getD {}
            -- auto-chaining, in its own try/except whose failure is dropped
            match execute_tool b "semantic_search" (chainedSearchArgs query_string sp) with
            | .ok (.news hits) =>
                if hits.isEmpty then st
                else { st with collected_news_chunks := st.collected_news_chunks ++ hits }
            | _ => st
        | _ => st
      else if tc.tool_name = "semantic_search" then
        match res with
        | .news hits =>
            if hits.isEmpty then st
            else { st with collected_news_chunks := st.collected_news_chunks ++ hits }
        | _ => st
      else st

/-- `do_plan` Step 1: the loop over the declared tool calls. -/
def runPlanLoop (b : ToolBehavior) (plan : List ToolCall) : ExecState :=
  plan.foldl (stepCall b) {}

/-- One iteration of the `do_plan` Step-2 loop over a collected news chunk;
failures are logged and dropped. -/
def extractChunkStep (b : ToolBehavior) (st : ExecState) (chunk : NewsChunk) :
    ExecState :=
  if truthyStr chunk.title || truthyStr chunk.document then
    match execute_tool b "extract_queries_from_news"
        { title := chunk.title, document := chunk.document } with
    | .ok (.queries qs) =>
        if qs.isEmpty then st
        else { st with generated_queries := st.generated_queries ++ qs }
    | _ => st
  else st

/-- `do_plan` Step 2: extract additional queries from the first three
collected news chunks. -/
def extractStep (b : ToolBehavior) (st : ExecState) : ExecState :=
  (st.collected_news_chunks.take 3).foldl (extractChunkStep b) st

/-- `do_plan` Step 3, selection part: which single coin's price data (if
any) is handed to `summarize_price_data`.  `none` means the summarizer is
not invoked at all. -/
def priceSummaryRequest (st : ExecState) : Option (String × List PriceRow) :=
  if st.collected_coin_prices.isEmpty ∧ st.collected_coin_hourly_prices.isEmpty then
    none
  else
    let coin_name := st.coin_names_set.head?.getD "UNKNOWN"
    let price_data :=
      match assocFind st.collected_coin_prices coin_name with
      | some rows => rows
      | none =>
          match assocFind st.collected_coin_hourly_prices coin_name with
          | some rows => rows
          | none => []
    if price_data.isEmpty then none else some (coin_name, price_data)

/-- `do_plan` Step 3: summarize the chosen coin's price data. -/
def step3 (b : ToolBehavior) (intentType : String) (st : ExecState) :
    Option String × ExecState :=
  match priceSummaryRequest st with
  | none => (none, st)
  | some (coin_name, price_data) =>
      match execute_tool b "summarize_price_data"
          { coin_name := some coin_name
          , price_data := price_data
          , analysis_focus := some (intentType ++ " 분석") } with
      | .ok (.text s) => (some s, st)
      | .ok _ => (none, st)
      | .error e =>
          (none, { st with errors := st.errors ++ ["Price summary failed: " ++ e] })

/-- `do_plan` Step 4: summarize every collected news chunk. -/
def step4 (b : ToolBehavior) (intentType : String) (st : ExecState) :
    Option String × ExecState :=
  if st.collected_news_chunks.isEmpty then (none, st)
  else
    match execute_tool b "summarize_news_chunks"
        { news_chunks := st.collected_news_chunks
        , focus_topic := some intentType } with
    | .ok (.text s) => (some s, st)
    | .ok _ => (none, st)
    | .error e =>
        (none, { st with errors := st.errors ++ ["News summary failed: " ++ e] })

/-- `do_plan` Step 5: combined summary when either summary is truthy. -/
def step5 (b : ToolBehavior) (intentType : String)
    (price_summary news_summary : Option String) (st : ExecState) :
    Option String × ExecState :=
  if truthyStr price_summary || truthyStr news_summary then
    let coin_name := st.coin_names_set.head?.getD "UNKNOWN"
    match execute_tool b "summarize_combined"
        { coin_name := some coin_name
        , price_summary := some (orDefault price_summary "가격 데이터 없음")
        , news_summary := some (orDefault news_summary "뉴스 데이터 없음")
        , user_query := some intentType } with
    | .ok (.text s) => (some s, st)
    | .ok _ => (none, st)
    | .error e =>
        (none, { st with errors := st.errors ++ ["Combined summary failed: " ++ e] })
  else (none, st)

/-- `ExecutorAgent.do_plan`. -/
def do_plan (b : ToolBehavior) (qp : QueryPlan) : PlanResult :=
  let total_actions := qp.query_plan.length
  let st := runPlanLoop b qp.query_plan
  let st := extractStep b st
  let (price_summary, st) := step3 b qp.intent_type st
  let (news_summary, st) := step4 b qp.intent_type st
  let (combined_summary, st) := step5 b qp.intent_type price_summary news_summary st
  { intent_type := qp.intent_type
  , collected_coin_prices := st.collected_coin_prices
  , collected_coin_hourly_prices := st.collected_coin_hourly_prices
  , collected_news_chunks := st.collected_news_chunks
  , coin_names := sortStrings st.coin_names_set
  , price_summary := price_summary
  , news_summary := news_summary
  , combined_summary := combined_summary
  , generated_queries := (pySetList st.generated_queries).take 10
  , total_actions := total_actions
  , successful_actions := st.successful_actions
  , failed_actions := st.failed_actions
  , errors := st.errors }

/-! ## News repository (src/app/repository/news_repository.py)

`NewsRepository._format_results` post-processes a ChromaDB answer.  The
answer's parallel arrays (`metadatas[0]`, `distances[0]`, `documents[0]`)
are modelled as one list of per-index hits; a `none` distance models a
response without a `distances` array at that index. -/

structure ChromaHit where
  title : Option String := none
  url : Option String := none
  link : Option String := none
  created_at : Option String := none
  publish_date : Option Int := none
  publish_date_readable : Option String := none
  source : Option String := none
  query : Option String := none
  distance : Option ℚ := none
  document : Option String := none
deriving DecidableEq, Repr

/-- The `VectorNewsResult` built from one kept hit. -/
def hitToChunk (hit : ChromaHit) (d : ℚ) : NewsChunk :=
  { title := hit.title
  , url := hit.url
  , link := hit.link
  , created_at := hit.created_at
  , publish_date := hit.publish_date
  , publish_date_readable := hit.publish_date_readable
  , source := hit.source
  , query := hit.query
  , distance := some d
  , similarity_score := some (1 - d)
  , document := hit.document }

/-- `NewsRepository._format_results`: compute `similarity = 1 - distance`,
drop hits whose similarity is unknown (`distances` missing) or below the
threshold, keep the store's order. -/
def format_results (hits : List ChromaHit) (similarity_threshold : ℚ) :
    List NewsChunk :=
  match hits with
  | [] => []
  | hit :: rest =>
      match hit.distance with
      | none => format_results rest similarity_threshold
      | some d =>
          if 1 - d ≥ similarity_threshold then
            hitToChunk hit d :: format_results rest similarity_threshold
          else format_results rest similarity_threshold

/-- `NewsRepository._calculate_date_range`. -/
def calculate_date_range (pivot_date : Int) (date_range : Option String) :
    Int × Int :=
  match date_range with
  | none => (pivot_date, pivot_date + 86399)
  | some r =>
      let offset : Int :=
        if r = "day" then 86400
        else if r = "week" then 7 * 86400
        else if r = "month" then 30 * 86400
        else 86400
      (pivot_date - offset, pivot_date + offset)

/-! ## Session cache (src/app/config/redis_config.py)

A model of the slice of Redis that `SessionManager` uses: string keys with
an optional absolute expiry holding a session document, and list keys with
an optional absolute expiry holding messages.  A key whose expiry has
passed behaves as absent on every read (Redis drops it opaquely). -/

structure SessionData where
  session_id : String
  user_id : Option String := none
  created_at : Nat := 0
  updated_at : Nat := 0
  context : List (String × String) := []
deriving DecidableEq, Repr

structure MessageData where
  role : String
  content : String
  timestamp : Nat
deriving DecidableEq, Repr

/-- The Redis state visible to `SessionManager`: the wall clock, the
session documents (`chat:session:*`) and the message lists
(`chat:messages:*`), each with an optional absolute expiry. -/
structure RedisState where
  now : Nat
  sessions : List (String × SessionData × Option Nat) := []
  messages : List (String × List MessageData × Option Nat) := []
deriving DecidableEq, Repr

/-- A stored entry is live while `now` is before its expiry. -/
def liveAt (now : Nat) (expiry : Option Nat) : Bool :=
  match expiry with
  | none => true
  | some e => now < e

def assocSet (m : List (String × α)) (k : String) (v : α) : List (String × α) :=
  match m with
  | [] => [(k, v)]
  | (k', v') :: rest =>
      if k' = k then (k', v) :: rest else (k', v') :: assocSet rest k v

/-- `redis.get`: the value, unless absent or expired. -/
def redisGet (st : RedisState) (k : String) : Option SessionData :=
  match assocFind st.sessions k with
  | some (v, e) => if liveAt st.now e then some v else none
  | none => none

/-- `redis.set(k, v, ex=ttl)`. -/
def redisSetEx (st : RedisState) (k : String) (v : SessionData) (ttl : Nat) :
    RedisState :=
  { st with sessions := assocSet st.sessions k (v, some (st.now + ttl)) }

/-- `redis.expire(k, ttl)`: refresh the expiry of a live key. -/
def redisExpire (st : RedisState) (k : String) (ttl : Nat) : RedisState :=
  match assocFind st.sessions k with
  | some (v, e) =>
      if liveAt st.now e then
        { st with sessions := assocSet st.sessions k (v, some (st.now + ttl)) }
      else st
  | none => st

/-- `redis.rpush` on a message list (creates the key, without expiry, when
absent or expired). -/
def redisRpush (st : RedisState) (k : String) (msg : MessageData) : RedisState :=
  match assocFind st.messages k with
  | some (l, e) =>
      if liveAt st.now e then
        { st with messages := assocSet st.messages k (l ++ [msg], e) }
      else
        { st with messages := assocSet st.messages k ([msg], none) }
  | none => { st with messages := assocSet st.messages k ([msg], none) }

/-- `redis.expire` on a message list. -/
def redisExpireMessages (st : RedisState) (k : String) (ttl : Nat) : RedisState :=
  match assocFind st.messages k with
  | some (l, e) =>
      if liveAt st.now e then
        { st with messages := assocSet st.messages k (l, some (st.now + ttl)) }
      else st
  | none => st

/-- `redis.lrange(k, -limit, -1)`: the trailing `limit` messages — except
that `-0 = 0`, so `limit = 0` returns the whole list. -/
def redisLrangeTail (st : RedisState) (k : String) (limit : Nat) :
    List MessageData :=
  match assocFind st.messages k with
  | some (l, e) =>
      if liveAt st.now e then
        if limit = 0 then l else l.drop (l.length - limit)
      else []
  | none => []

def session_key (session_id : String) : String := "chat:session:" ++ session_id

def messages_key (session_id : String) : String := "chat:messages:" ++ session_id

/-- `SessionManager.create_session`. -/
def create_session (ttl : Nat) (st : RedisState) (session_id : String)
    (user_id : Option String) : SessionData × RedisState :=
  let data : SessionData :=
    { session_id := session_id
    , user_id := user_id
    , created_at := st.now
    , updated_at := st.now
    , context := [] }
  (data, redisSetEx st (session_key session_id) data ttl)

/-- `SessionManager.get_session`: read, and refresh the TTL on a hit. -/
def get_session (ttl : Nat) (st : RedisState) (session_id : String) :
    Option SessionData × RedisState :=
  match redisGet st (session_key session_id) with
  | some data => (some data, redisExpire st (session_key session_id) ttl)
  | none => (none, st)

/-- Shallow merge of the context dict (`dict.update`). -/
def contextUpdate (ctx : List (String × String)) (patch : List (String × String)) :
    List (String × String) :=
  patch.foldl (fun acc kv => assocSet acc kv.1 kv.2) ctx

/-- `SessionManager.update_context`. -/
def update_context (ttl : Nat) (st : RedisState) (session_id : String)
    (patch : List (String × String)) : Bool × RedisState :=
  match get_session ttl st session_id with
  | (none, st') => (false, st')
  | (some session, st') =>
      let session' := { session with
        context := contextUpdate session.context patch
        updated_at := st'.now }
      (true, redisSetEx st' (session_key session_id) session' ttl)

/-- `SessionManager.add_message`: `rpush` then `expire`. -/
def add_message (ttl : Nat) (st : RedisState) (session_id : String)
    (role content : String) : Bool × RedisState :=
  let msg : MessageData := { role := role, content := content, timestamp := st.now }
  let st := redisRpush st (messages_key session_id) msg
  (true, redisExpireMessages st (messages_key session_id) ttl)

/-- `SessionManager.get_messages`: a pure read — the source issues no
`expire` (nor any other write) here. -/
def get_messages (st : RedisState) (session_id : String) (limit : Nat := 20) :
    List MessageData × RedisState :=
  (redisLrangeTail st (messages_key session_id) limit, st)

/-! ## Concrete instances used by the claim theorems -/

def utterance200 : String := String.mk (List.replicate 200 'a')

def utterance201 : String := String.mk (List.replicate 201 'a')

/-- The news passages a single declared tool call contributes to the shared
list: for a declared `semantic_search` its own result, for a
`make_semantic_query` the result of its auto-chained search, nothing
otherwise or on failure.  Since tool outcomes are deterministic in the
arguments, this depends only on the call itself. -/
def newsOf (b : ToolBehavior) (tc : ToolCall) : List NewsChunk :=
  match execute_tool b tc.tool_name tc.arguments with
  | .error _ => []
  | .ok res =>
      if tc.tool_name = "get_coin_price" then []
      else if tc.tool_name = "make_semantic_query" then
        match res with
        | .text query_string =>
            match execute_tool b "semantic_search"
                (chainedSearchArgs query_string ((tc.arguments.search_params).getD {})) with
            | .ok (.news hits) => hits
            | _ => []
        | _ => []
      else if tc.tool_name = "semantic_search" then
        match res with
        | .news hits => hits
        | _ => []
      else []

/-- The ordering the claim asserts of the executor's news list: similarity
scores are non-increasing from head to tail. -/
def sortedBySimilarityDesc (l : List NewsChunk) : Prop :=
  List.Pairwise (fun p q => q.similarity_score.getD 0 ≤ p.similarity_score.getD 0) l

/-- Fully populated `_search_params` for the concrete plans below. -/
def soloSearchParams : SearchParams :=
  { top_k := some 15, similarity_threshold := some 0
  , pivot_date := some 0, date_range := some "month" }

def msqCall (ctx : String) : ToolCall :=
  { tool_name := "make_semantic_query"
  , arguments :=
    { coin_names := ["BTC"], intent_type := some "news_summary"
    , custom_context := some ctx, search_params := some soloSearchParams } }

def simChunk (s : ℚ) : NewsChunk :=
  { title := some "t", document := some "d", similarity_score := some s }

def behaviorC4 : ToolBehavior :=
  { getCoinPrice := fun _ => .error "unused"
  , makeSemanticQuery := fun _ => .ok "Q"
  , semanticSearch := fun _ => .ok [simChunk 4, simChunk 3, simChunk 2, simChunk 1]
  , extractQueriesFromNews := fun _ => .ok []
  , summarizePriceData := fun _ => .ok "PS"
  , summarizeNewsChunks := fun _ => .ok "NS"
  , summarizeCombined := fun _ => .ok "CS" }

def planC4 : QueryPlan :=
  { intent_type := "news_summary", pivot_time := 0
  , query_plan := [msqCall "angle"] }

def hitLow : ChromaHit := { title := some "low", distance := some 1 }

def hitHigh : ChromaHit := { title := some "high", distance := some 2 }

/-- Two perspectives whose searches return similarities `1` then `2`. -/
def behaviorC5 : ToolBehavior :=
  { getCoinPrice := fun _ => .error "unused"
  , makeSemanticQuery := fun a => .ok (a.custom_context.getD "Q")
  , semanticSearch := fun a =>
      if a.query = some "first" then .ok [simChunk 1] else .ok [simChunk 2]
  , extractQueriesFromNews := fun _ => .ok []
  , summarizePriceData := fun _ => .ok "PS"
  , summarizeNewsChunks := fun _ => .ok "NS"
  , summarizeCombined := fun _ => .ok "CS" }

def planC5 : QueryPlan :=
  { intent_type := "news_summary", pivot_time := 0
  , query_plan := [msqCall "first", msqCall "second"] }

def behaviorC9 : ToolBehavior :=
  { getCoinPrice := fun _ => .error "unused"
  , makeSemanticQuery := fun _ => .ok "Q"
  , semanticSearch := fun _ => .error "vector store down"
  , extractQueriesFromNews := fun _ => .error "unused"
  , summarizePriceData := fun _ => .error "unused"
  , summarizeNewsChunks := fun _ => .error "unused"
  , summarizeCombined := fun _ => .error "unused" }

def priceRow1 : PriceRow := .daily "2024-10-01" 100 (some 0)

def gcpCall (coin : String) : ToolCall :=
  { tool_name := "get_coin_price"
  , arguments :=
    { coin_name := some coin, pivot_date := some 0
    , range_type := some "week", direction := some "before" } }

def behaviorC10 : ToolBehavior :=
  { getCoinPrice := fun a =>
      .ok (if a.coin_name = some "BBB" then [priceRow1] else [])
  , makeSemanticQuery := fun _ => .error "unused"
  , semanticSearch := fun _ => .error "unused"
  , extractQueriesFromNews := fun _ => .error "unused"
  , summarizePriceData := fun _ => .ok "PRICE SUMMARY"
  , summarizeNewsChunks := fun _ => .ok "NS"
  , summarizeCombined := fun _ => .ok "CS" }

def planC10 : QueryPlan :=
  { intent_type := "market_trend", pivot_time := 0
  , query_plan := [gcpCall "AAA", gcpCall "BBB"] }

def sessionS : SessionData := { session_id := "s" }

def msgHi : MessageData := { role := "user", content := "hi", timestamp := 0 }

def stAfterAdd : RedisState := (add_message 3600 { now := 0 } "s" "user" "hi").2

def stLater : RedisState := { stAfterAdd with now := 100 }

/-! ## Helper lemmas -/

theorem assocFind_assocSet (m : List (String × α)) (k : String) (v : α) :
    assocFind (assocSet m k v) k = some v := by
  induction m with
  | nil => simp [assocSet, assocFind]
  | cons hd tl ih =>
      by_cases h : hd.1 = k
      · simp [assocSet, assocFind, h]
      · simp [assocSet, assocFind, h, ih]

/-! ## C8 — analyzer length boundary -/

/-- C8: `analyze_query` accepts an utterance of at most 200 characters (in
particular one of exactly 200) in the sense that it is never rejected as
too long, and rejects every longer utterance with the `QueryTooLong` error,
whatever the LLM oracle would answer (so before any further processing). -/
theorem analyze_query_length_boundary
    (llm : String → Option NormalizedQueryDict) (q : String) :
    (q.length ≤ max_query_length → analyze_query llm q ≠ .error .queryTooLong) ∧
    (q.length > max_query_length → analyze_query llm q = .error .queryTooLong) := by
  constructor
  · intro hle
    unfold analyze_query
    rw [if_neg (by omega)]
    cases llm q <;> simp
  · intro hgt
    unfold analyze_query
    rw [if_pos hgt]

theorem analyze_query_length_boundary_witness :
    analyze_query (fun _ => none) utterance200 ≠ .error .queryTooLong ∧
    analyze_query (fun _ => none) utterance201 = .error .queryTooLong :=
  ⟨(analyze_query_length_boundary (fun _ => none) utterance200).1
      (by simp [utterance200, String.length, max_query_length]),
   (analyze_query_length_boundary (fun _ => none) utterance201).2
      (by simp [utterance201, String.length, max_query_length])⟩

/-! ## C2 — planner refuses unknown intent -/

/-- C2: `make_plan` on a `NormalizedQuery` whose `intent_type` is
`"unknown"` (or absent, which defaults to `"unknown"`) raises the
`UNKNOWN_INTENT` error and produces no `QueryPlan`, hence no ToolCalls. -/
theorem make_plan_unknown_intent_refuses (nowMidnight : Int)
    (nq : NormalizedQueryDict) (h : nq.intent_type.getD "unknown" = "unknown") :
    make_plan nowMidnight nq = .error .unknownIntent := by
  unfold make_plan
  rw [h]
  simp

theorem make_plan_unknown_intent_refuses_witness :
    make_plan 0 { intent_type := some "unknown" } = .error .unknownIntent :=
  make_plan_unknown_intent_refuses 0 { intent_type := some "unknown" } rfl

/-! ## C1 — `get_coin_price` can never return price points -/

/-- C1: every invocation of `get_coin_price` — whatever the coin, pivot,
`range_type` or `direction` — raises `AttributeError`, because
`PriceRepository` defines no `find_by_range` method; since `raised` and
`rows` are distinct constructors, no invocation ever returns a sequence of
price points. -/
theorem get_coin_price_always_raises (coin_name : String) (pivot_date : Int)
    (range_type direction : String) :
    ∃ err, get_coin_price coin_name pivot_date range_type direction
        = GetCoinPriceResult.raised err := by
  have h : lookupMethod priceRepositoryMethodNames "find_by_range" = none := by
    decide
  unfold get_coin_price
  rw [h]
  exact ⟨_, rfl⟩

/-! ## Executor loop lemmas -/

theorem stepCall_counters (b : ToolBehavior) (st : ExecState) (tc : ToolCall) :
    (stepCall b st tc).successful_actions + (stepCall b st tc).failed_actions
        = st.successful_actions + st.failed_actions + 1 := by
  unfold stepCall
  rcases hcall : execute_tool b tc.tool_name tc.arguments with e | res
  · simp [hcall]
    omega
  · by_cases h1 : tc.tool_name = "get_coin_price"
    · rcases res with rows | q | hits | qs <;> simp [hcall, h1] <;>
        first
          | omega
          | (split <;> simp <;> omega)
    · by_cases h2 : tc.tool_name = "make_semantic_query"
      · rcases res with rows | q | hits | qs <;> simp [hcall, h1, h2] <;>
          try omega
        rcases hch : execute_tool b "semantic_search"
            (chainedSearchArgs q ((tc.arguments.search_params).getD {})) with e' | res'
        · simp [hch]
          omega
        · rcases res' with _ | _ | hits | _ <;> simp [hch] <;> try omega
          split <;> simp <;> omega
      · by_cases h3 : tc.tool_name = "semantic_search"
        · rcases res with rows | q | hits | qs <;> simp [hcall, h1, h2, h3] <;>
            try omega
          split <;> simp <;> omega
        · simp [hcall, h1, h2, h3]
          omega

theorem stepCall_news (b : ToolBehavior) (st : ExecState) (tc : ToolCall) :
    (stepCall b st tc).collected_news_chunks
        = st.collected_news_chunks ++ newsOf b tc := by
  unfold stepCall newsOf
  rcases hcall : execute_tool b tc.tool_name tc.arguments with e | res
  · simp [hcall]
  · by_cases h1 : tc.tool_name = "get_coin_price"
    · rcases res with rows | q | hits | qs <;> simp [hcall, h1] <;>
        split <;> simp
    · by_cases h2 : tc.tool_name = "make_semantic_query"
      · rcases res with rows | q | hits | qs <;> simp [hcall, h1, h2]
        rcases hch : execute_tool b "semantic_search"
            (chainedSearchArgs q ((tc.arguments.search_params).getD {})) with e' | res'
        · simp [hch]
        · rcases res' with _ | _ | hits | _ <;> simp [hch]
          split <;> simp_all
      · by_cases h3 : tc.tool_name = "semantic_search"
        · rcases res with rows | q | hits | qs <;> simp [hcall, h1, h2, h3]
          split <;> simp_all
        · simp [hcall, h1, h2, h3]

theorem foldl_stepCall_counters (b : ToolBehavior) (plan : List ToolCall)
    (st : ExecState) :
    (plan.foldl (stepCall b) st).successful_actions
        + (plan.foldl (stepCall b) st).failed_actions
      = st.successful_actions + st.failed_actions + plan.length := by
  induction plan generalizing st with
  | nil => simp
  | cons tc rest ih =>
      have h := stepCall_counters b st tc
      simp only [List.foldl_cons, List.length_cons]
      rw [ih]
      omega

theorem foldl_stepCall_news (b : ToolBehavior) (plan : List ToolCall)
    (st : ExecState) :
    (plan.foldl (stepCall b) st).collected_news_chunks
      = st.collected_news_chunks ++ (plan.map (newsOf b)).flatten := by
  induction plan generalizing st with
  | nil => simp
  | cons tc rest ih =>
      have h := stepCall_news b st tc
      simp only [List.foldl_cons, List.map_cons, List.flatten]
      rw [ih, h]
      simp

/-! ### Steps 2–5 only touch `generated_queries` and `errors` -/

theorem extractChunkStep_preserves (b : ToolBehavior) (st : ExecState)
    (chunk : NewsChunk) :
    extractChunkStep b st chunk = st ∨
    ∃ qs, extractChunkStep b st chunk
        = { st with generated_queries := st.generated_queries ++ qs } := by
  unfold extractChunkStep
  by_cases h : (truthyStr chunk.title || truthyStr chunk.document) = true
  · rw [if_pos h]
    rcases hex : execute_tool b "extract_queries_from_news"
        { title := chunk.title, document := chunk.document } with e | res
    · left; rfl
    · rcases res with _ | _ | _ | qs
      · left; rfl
      · left; rfl
      · left; rfl
      · by_cases hq : qs.isEmpty
        · left; simp [hq]
        · right; exact ⟨qs, by simp [hq]⟩
  · rw [if_neg h]; left; rfl

theorem extractFold_preserves (b : ToolBehavior) (l : List NewsChunk)
    (st : ExecState) :
    ∃ qs, l.foldl (extractChunkStep b) st
        = { st with generated_queries := st.generated_queries ++ qs } := by
  induction l generalizing st with
  | nil => exact ⟨[], by simp⟩
  | cons c rest ih =>
      rcases extractChunkStep_preserves b st c with h | ⟨qs, h⟩
      · obtain ⟨qs', h'⟩ := ih (extractChunkStep b st c)
        exact ⟨qs', by rw [List.foldl_cons, h', h]⟩
      · obtain ⟨qs', h'⟩ := ih (extractChunkStep b st c)
        refine ⟨qs ++ qs', ?_⟩
        rw [List.foldl_cons, h', h]
        simp

theorem extractStep_preserves (b : ToolBehavior) (st : ExecState) :
    ∃ qs, extractStep b st
        = { st with generated_queries := st.generated_queries ++ qs } := by
  unfold extractStep
  exact extractFold_preserves b _ st

theorem step3_state (b : ToolBehavior) (i : String) (st : ExecState) :
    (step3 b i st).2 = st ∨
    ∃ e, (step3 b i st).2 = { st with errors := st.errors ++ [e] } := by
  unfold step3
  rcases hreq : priceSummaryRequest st with _ | ⟨coin, rows⟩
  · left; rfl
  · dsimp only
    rcases hex : execute_tool b "summarize_price_data"
        { coin_name := some coin, price_data := rows
        , analysis_focus := some (i ++ " 분석") } with e | res
    · right; exact ⟨_, rfl⟩
    · rcases res with _ | s | _ | _ <;> (left; rfl)

theorem step4_state (b : ToolBehavior) (i : String) (st : ExecState) :
    (step4 b i st).2 = st ∨
    ∃ e, (step4 b i st).2 = { st with errors := st.errors ++ [e] } := by
  unfold step4
  by_cases hne : st.collected_news_chunks.isEmpty
  · rw [if_pos hne]; left; rfl
  · rw [if_neg hne]
    rcases hex : execute_tool b "summarize_news_chunks"
        { news_chunks := st.collected_news_chunks, focus_topic := some i } with e | res
    · right; exact ⟨_, rfl⟩
    · rcases res with _ | s | _ | _ <;> (left; rfl)

theorem step5_state (b : ToolBehavior) (i : String) (ps ns : Option String)
    (st : ExecState) :
    (step5 b i ps ns st).2 = st ∨
    ∃ e, (step5 b i ps ns st).2 = { st with errors := st.errors ++ [e] } := by
  unfold step5
  by_cases h : (truthyStr ps || truthyStr ns) = true
  · rw [if_pos h]
    dsimp only
    rcases hex : execute_tool b "summarize_combined"
        { coin_name := some (st.coin_names_set.head?.getD "UNKNOWN")
        , price_summary := some (orDefault ps "가격 데이터 없음")
        , news_summary := some (orDefault ns "뉴스 데이터 없음")
        , user_query := some i } with e | res
    · right; exact ⟨_, rfl⟩
    · rcases res with _ | s | _ | _ <;> (left; rfl)
  · rw [if_neg h]; left; rfl

/-- The fields of `do_plan`'s result that come straight from the Step-1
loop state: Steps 2–5 never modify them. -/
theorem do_plan_loop_fields (b : ToolBehavior) (qp : QueryPlan) :
    (do_plan b qp).successful_actions
        = (runPlanLoop b qp.query_plan).successful_actions ∧
    (do_plan b qp).failed_actions
        = (runPlanLoop b qp.query_plan).failed_actions ∧
    (do_plan b qp).total_actions = qp.query_plan.length ∧
    (do_plan b qp).collected_news_chunks
        = (runPlanLoop b qp.query_plan).collected_news_chunks ∧
    (do_plan b qp).collected_coin_prices
        = (runPlanLoop b qp.query_plan).collected_coin_prices ∧
    (do_plan b qp).collected_coin_hourly_prices
        = (runPlanLoop b qp.query_plan).collected_coin_hourly_prices ∧
    (do_plan b qp).coin_names
        = sortStrings (runPlanLoop b qp.query_plan).coin_names_set := by
  unfold do_plan
  obtain ⟨qs2, h2⟩ := extractStep_preserves b (runPlanLoop b qp.query_plan)
  rcases h3p : step3 b qp.intent_type (extractStep b (runPlanLoop b qp.query_plan))
      with ⟨ps, st3⟩
  rcases h4p : step4 b qp.intent_type st3 with ⟨ns, st4⟩
  rcases h5p : step5 b qp.intent_type ps ns st4 with ⟨cs, st5⟩
  have hd3 : st3 = extractStep b (runPlanLoop b qp.query_plan) ∨
      ∃ e, st3 = { extractStep b (runPlanLoop b qp.query_plan) with
        errors := (extractStep b (runPlanLoop b qp.query_plan)).errors ++ [e] } := by
    have hstep := step3_state b qp.intent_type
        (extractStep b (runPlanLoop b qp.query_plan))
    rw [h3p] at hstep
    exact hstep
  have hd4 : st4 = st3 ∨ ∃ e, st4 = { st3 with errors := st3.errors ++ [e] } := by
    have hstep := step4_state b qp.intent_type st3
    rw [h4p] at hstep
    exact hstep
  have hd5 : st5 = st4 ∨ ∃ e, st5 = { st4 with errors := st4.errors ++ [e] } := by
    have hstep := step5_state b qp.intent_type ps ns st4
    rw [h5p] at hstep
    exact hstep
  have hst3 : st3.successful_actions
        = (runPlanLoop b qp.query_plan).successful_actions ∧
      st3.failed_actions = (runPlanLoop b qp.query_plan).failed_actions ∧
      st3.collected_news_chunks
        = (runPlanLoop b qp.query_plan).collected_news_chunks ∧
      st3.collected_coin_prices
        = (runPlanLoop b qp.query_plan).collected_coin_prices ∧
      st3.collected_coin_hourly_prices
        = (runPlanLoop b qp.query_plan).collected_coin_hourly_prices ∧
      st3.coin_names_set = (runPlanLoop b qp.query_plan).coin_names_set := by
    rcases hd3 with h | ⟨e, h⟩ <;> rw [h, h2] <;> simp
  have hst4 : st4.successful_actions = st3.successful_actions ∧
      st4.failed_actions = st3.failed_actions ∧
      st4.collected_news_chunks = st3.collected_news_chunks ∧
      st4.collected_coin_prices = st3.collected_coin_prices ∧
      st4.collected_coin_hourly_prices = st3.collected_coin_hourly_prices ∧
      st4.coin_names_set = st3.coin_names_set := by
    rcases hd4 with h | ⟨e, h⟩ <;> rw [h] <;> simp
  have hst5 : st5.successful_actions = st4.successful_actions ∧
      st5.failed_actions = st4.failed_actions ∧
      st5.collected_news_chunks = st4.collected_news_chunks ∧
      st5.collected_coin_prices = st4.collected_coin_prices ∧
      st5.collected_coin_hourly_prices = st4.collected_coin_hourly_prices ∧
      st5.coin_names_set = st4.coin_names_set := by
    rcases hd5 with h | ⟨e, h⟩ <;> rw [h] <;> simp
  simp only [h3p, h4p, h5p]
  obtain ⟨a3, b3, c3, d3, e3, f3⟩ := hst3
  obtain ⟨a4, b4, c4, d4, e4, f4⟩ := hst4
  obtain ⟨a5, b5, c5, d5, e5, f5⟩ := hst5
  simp [a3, b3, c3, d3, e3, f3, a4, b4, c4, d4, e4, f4, a5, b5, c5, d5, e5, f5]

/-! ## C3 — execution counters -/

/-- C3: for every plan and every assignment of outcomes to the tool
invocations, `successful_actions + failed_actions = total_actions` and
`total_actions` is the number of declared ToolCalls; the auto-chained
`semantic_search` calls never touch any of the three counters (the total is
the declared count, and every declared call contributes exactly one unit to
exactly one of the other two). -/
theorem plan_result_counters (b : ToolBehavior) (qp : QueryPlan) :
    (do_plan b qp).successful_actions + (do_plan b qp).failed_actions
        = (do_plan b qp).total_actions ∧
    (do_plan b qp).total_actions = qp.query_plan.length := by
  obtain ⟨hs, hf, ht, -, -, -, -⟩ := do_plan_loop_fields b qp
  have hc := foldl_stepCall_counters b qp.query_plan {}
  refine ⟨?_, ht⟩
  rw [hs, hf, ht]
  unfold runPlanLoop
  simpa using hc

/-! ## C4 — every passage of every search result is kept -/

/-- C4 is false of the code (see `news_top3_counterexample`); what holds
instead: the executor appends every passage of every (declared or
auto-chained) `semantic_search` result to the collected news list — no
top-3 truncation — and that whole list is what Step 4 passes to
`summarize_news_chunks`. -/
theorem news_collected_untruncated (b : ToolBehavior) (qp : QueryPlan) :
    (do_plan b qp).collected_news_chunks.length
      = (qp.query_plan.map (fun tc => (newsOf b tc).length)).sum := by
  obtain ⟨-, -, -, hn, -, -, -⟩ := do_plan_loop_fields b qp
  rw [hn]
  unfold runPlanLoop
  rw [foldl_stepCall_news b qp.query_plan {}]
  simp [Function.comp_def]

/-- C4 as stated is false: a single `semantic_search` result of four
passages reaches the collected list (and hence summarization) whole — more
than the claimed top-3 cap. -/
theorem news_top3_counterexample :
    ¬ ((do_plan behaviorC4 planC4).collected_news_chunks.length ≤ 3) := by
  have h : (do_plan behaviorC4 planC4).collected_news_chunks.length = 4 := by rfl
  rw [h]
  omega

/-! ## C5 — ordering of the collected news list -/

theorem mem_format_results {hits : List ChromaHit} {thr : ℚ} {c : NewsChunk}
    (hc : c ∈ format_results hits thr) :
    ∃ hit ∈ hits, ∃ d, hit.distance = some d ∧
      c.similarity_score = some (1 - d) := by
  induction hits with
  | nil => simp [format_results] at hc
  | cons a rest ih =>
      rw [format_results] at hc
      rcases ha : a.distance with _ | d <;> rw [ha] at hc <;> dsimp only at hc
      · obtain ⟨hit, hmem, hrest⟩ := ih hc
        exact ⟨hit, List.mem_cons_of_mem a hmem, hrest⟩
      · by_cases hcmp : 1 - d ≥ thr
        · rw [if_pos hcmp] at hc
          rcases List.mem_cons.mp hc with h | h
          · exact ⟨a, List.mem_cons_self a rest, d, ha, by rw [h]; rfl⟩
          · obtain ⟨hit, hmem, hrest⟩ := ih h
            exact ⟨hit, List.mem_cons_of_mem a hmem, hrest⟩
        · rw [if_neg hcmp] at hc
          obtain ⟨hit, hmem, hrest⟩ := ih hc
          exact ⟨hit, List.mem_cons_of_mem a hmem, hrest⟩

/-- Within a single search result, `_format_results` preserves the store's
order, so an answer whose distances are non-decreasing yields passages with
non-increasing similarity. -/
theorem format_results_sorted (hits : List ChromaHit) (thr : ℚ)
    (h : List.Pairwise (fun a b => a.distance.getD 0 ≤ b.distance.getD 0) hits) :
    sortedBySimilarityDesc (format_results hits thr) := by
  induction hits with
  | nil => exact List.Pairwise.nil
  | cons a rest ih =>
      rw [List.pairwise_cons] at h
      obtain ⟨hhead, htail⟩ := h
      rw [format_results]
      rcases ha : a.distance with _ | d <;> dsimp only
      · exact ih htail
      · by_cases hcmp : 1 - d ≥ thr
        · rw [if_pos hcmp]
          refine List.Pairwise.cons ?_ (ih htail)
          intro c hcmem
          obtain ⟨hit, hmem, d', hd', hsim⟩ := mem_format_results hcmem
          have hdist := hhead hit hmem
          rw [ha, hd'] at hdist
          simp only [Option.getD_some] at hdist
          simp only [hsim, hitToChunk, Option.getD_some]
          linarith
        · rw [if_neg hcmp]
          exact ih htail

/-- C5 is false of the code (see `news_order_counterexample`); what holds
instead: the collected news list is the concatenation, in the plan's
declared order, of the per-call search results (each auto-chained search's
passages form one contiguous block), and each individual block is sorted by
similarity descending whenever the vector store answered it in distance
order — but no global re-sort happens across blocks. -/
theorem news_order_characterization :
    (∀ (b : ToolBehavior) (qp : QueryPlan),
        (do_plan b qp).collected_news_chunks
          = (qp.query_plan.map (newsOf b)).flatten) ∧
    (∀ (hits : List ChromaHit) (thr : ℚ),
        List.Pairwise (fun a b => a.distance.getD 0 ≤ b.distance.getD 0) hits →
        sortedBySimilarityDesc (format_results hits thr)) := by
  constructor
  · intro b qp
    obtain ⟨-, -, -, hn, -, -, -⟩ := do_plan_loop_fields b qp
    rw [hn]
    unfold runPlanLoop
    rw [foldl_stepCall_news b qp.query_plan {}]
    rfl
  · exact format_results_sorted

theorem news_order_characterization_witness :
    sortedBySimilarityDesc (format_results [hitLow, hitHigh] (-2)) :=
  news_order_characterization.2 [hitLow, hitHigh] (-2)
    (by simp [hitLow, hitHigh])

/-- C5 as stated is false: with the first perspective's passage scoring 1
and the second's scoring 2, the collected list is `[1, 2]` — an earlier
passage with strictly smaller similarity than a later one. -/
theorem news_order_counterexample :
    ¬ sortedBySimilarityDesc (do_plan behaviorC5 planC5).collected_news_chunks := by
  have h : (do_plan behaviorC5 planC5).collected_news_chunks
      = [simChunk 1, simChunk 2] := by rfl
  rw [h]
  unfold sortedBySimilarityDesc
  simp [simChunk]

/-! ## C6 — determinism of `do_plan` given identical tool responses -/

/-- C6: two executions of the same QueryPlan against tool registries that
return identical responses on every invocation produce PlanResults whose
non-summary fields — coin names, the three counters, the errors, the
collected price and news data, and the generated queries — are identical.
(Within the embedding the summaries agree as well; in the running system
they come from a non-deterministic language model, which is why the claim
exempts them.) -/
theorem do_plan_deterministic (b₁ b₂ : ToolBehavior) (qp : QueryPlan)
    (hg : ∀ a, b₁.getCoinPrice a = b₂.getCoinPrice a)
    (hm : ∀ a, b₁.makeSemanticQuery a = b₂.makeSemanticQuery a)
    (hs : ∀ a, b₁.semanticSearch a = b₂.semanticSearch a)
    (he : ∀ a, b₁.extractQueriesFromNews a = b₂.extractQueriesFromNews a)
    (hp : ∀ a, b₁.summarizePriceData a = b₂.summarizePriceData a)
    (hn : ∀ a, b₁.summarizeNewsChunks a = b₂.summarizeNewsChunks a)
    (hc : ∀ a, b₁.summarizeCombined a = b₂.summarizeCombined a) :
    (do_plan b₁ qp).coin_names = (do_plan b₂ qp).coin_names ∧
    (do_plan b₁ qp).total_actions = (do_plan b₂ qp).total_actions ∧
    (do_plan b₁ qp).successful_actions = (do_plan b₂ qp).successful_actions ∧
    (do_plan b₁ qp).failed_actions = (do_plan b₂ qp).failed_actions ∧
    (do_plan b₁ qp).errors = (do_plan b₂ qp).errors ∧
    (do_plan b₁ qp).collected_coin_prices = (do_plan b₂ qp).collected_coin_prices ∧
    (do_plan b₁ qp).collected_coin_hourly_prices
      = (do_plan b₂ qp).collected_coin_hourly_prices ∧
    (do_plan b₁ qp).collected_news_chunks = (do_plan b₂ qp).collected_news_chunks ∧
    (do_plan b₁ qp).generated_queries = (do_plan b₂ qp).generated_queries := by
  have hb : b₁ = b₂ := by
    cases b₁
    cases b₂
    congr <;> funext a <;>
      first
        | exact hg a
        | exact hm a
        | exact hs a
        | exact he a
        | exact hp a
        | exact hn a
        | exact hc a
  subst hb
  exact ⟨rfl, rfl, rfl, rfl, rfl, rfl, rfl, rfl, rfl⟩

theorem do_plan_deterministic_witness :
    (do_plan behaviorC4 planC4).coin_names = (do_plan behaviorC4 planC4).coin_names ∧
    (do_plan behaviorC4 planC4).total_actions = (do_plan behaviorC4 planC4).total_actions ∧
    (do_plan behaviorC4 planC4).successful_actions
      = (do_plan behaviorC4 planC4).successful_actions ∧
    (do_plan behaviorC4 planC4).failed_actions = (do_plan behaviorC4 planC4).failed_actions ∧
    (do_plan behaviorC4 planC4).errors = (do_plan behaviorC4 planC4).errors ∧
    (do_plan behaviorC4 planC4).collected_coin_prices
      = (do_plan behaviorC4 planC4).collected_coin_prices ∧
    (do_plan behaviorC4 planC4).collected_coin_hourly_prices
      = (do_plan behaviorC4 planC4).collected_coin_hourly_prices ∧
    (do_plan behaviorC4 planC4).collected_news_chunks
      = (do_plan behaviorC4 planC4).collected_news_chunks ∧
    (do_plan behaviorC4 planC4).generated_queries
      = (do_plan behaviorC4 planC4).generated_queries :=
  do_plan_deterministic behaviorC4 behaviorC4 planC4
    (fun _gc => rfl) (fun _mq => rfl) (fun _ss => rfl) (fun _eq => rfl)
    (fun _sp => rfl) (fun _sn => rfl) (fun _sc => rfl)

/-! ## C9 — auto-chained search failures are invisible -/

theorem stepCall_msq_chained_failure (b : ToolBehavior) (st : ExecState)
    (tc : ToolCall) (hname : tc.tool_name = "make_semantic_query")
    (q : String) (hq : b.makeSemanticQuery (stripMeta tc.arguments) = .ok q)
    (e : String)
    (hs : b.semanticSearch (stripMeta (chainedSearchArgs q
        ((tc.arguments.search_params).getD {}))) = .error e) :
    stepCall b st tc
      = { st with executed_queries := st.executed_queries ++ [q]
                , successful_actions := st.successful_actions + 1 } := by
  unfold stepCall execute_tool
  rw [hname]
  simp [hq, hs, Except.map]

theorem runPlanLoop_all_msq_failing_search (b : ToolBehavior)
    (plan : List ToolCall)
    (hnames : ∀ tc ∈ plan, tc.tool_name = "make_semantic_query")
    (hok : ∀ a, ∃ q, b.makeSemanticQuery a = Except.ok q)
    (hfail : ∀ a, ∃ e, b.semanticSearch a = Except.error e) :
    ∀ st : ExecState, ∃ qs,
      plan.foldl (stepCall b) st
        = { st with executed_queries := st.executed_queries ++ qs
                  , successful_actions := st.successful_actions + plan.length } := by
  induction plan with
  | nil => intro st; exact ⟨[], by simp⟩
  | cons tc rest ih =>
      intro st
      obtain ⟨q, hq⟩ := hok (stripMeta tc.arguments)
      obtain ⟨e, hs⟩ := hfail (stripMeta (chainedSearchArgs q
          ((tc.arguments.search_params).getD {})))
      have hstep := stepCall_msq_chained_failure b st tc
        (hnames tc (List.mem_cons_self tc rest)) q hq e hs
      obtain ⟨qs, hrest⟩ := ih (fun tc' h' => hnames tc' (List.mem_cons_of_mem tc h'))
        (stepCall b st tc)
      refine ⟨q :: qs, ?_⟩
      rw [List.foldl_cons, hrest, hstep]
      simp
      omega

/-- C9: when every auto-chained `semantic_search` raises while every
declared `make_semantic_query` succeeds, the executor swallows the search
exceptions entirely: `failed_actions = 0`, `errors = []`, every declared
call still counts as successful, and no news is collected — a turn reports
a fully successful execution although every news search failed. -/
theorem chained_search_failures_invisible (b : ToolBehavior) (qp : QueryPlan)
    (hnames : ∀ tc ∈ qp.query_plan, tc.tool_name = "make_semantic_query")
    (hok : ∀ a, ∃ q, b.makeSemanticQuery a = Except.ok q)
    (hfail : ∀ a, ∃ e, b.semanticSearch a = Except.error e) :
    (do_plan b qp).failed_actions = 0 ∧
    (do_plan b qp).errors = [] ∧
    (do_plan b qp).successful_actions = (do_plan b qp).total_actions ∧
    (do_plan b qp).collected_news_chunks = [] := by
  obtain ⟨qs, hloop⟩ := runPlanLoop_all_msq_failing_search b qp.query_plan
      hnames hok hfail {}
  have hloop' : runPlanLoop b qp.query_plan
      = { executed_queries := qs, successful_actions := qp.query_plan.length } := by
    unfold runPlanLoop
    rw [hloop]
    simp [ExecState.mk.injEq]
  have hextract : extractStep b (runPlanLoop b qp.query_plan)
      = runPlanLoop b qp.query_plan := by
    unfold extractStep
    rw [hloop']
    rfl
  have hreq : priceSummaryRequest (runPlanLoop b qp.query_plan) = none := by
    rw [hloop']
    rfl
  unfold do_plan
  dsimp only
  rw [hextract]
  have h3 : step3 b qp.intent_type (runPlanLoop b qp.query_plan)
      = (none, runPlanLoop b qp.query_plan) := by
    unfold step3
    rw [hreq]
  have h4 : step4 b qp.intent_type (runPlanLoop b qp.query_plan)
      = (none, runPlanLoop b qp.query_plan) := by
    unfold step4
    rw [hloop']
    rfl
  have h5 : step5 b qp.intent_type none none (runPlanLoop b qp.query_plan)
      = (none, runPlanLoop b qp.query_plan) := by
    unfold step5
    rfl
  rw [h3, h4, h5, hloop']
  exact ⟨rfl, rfl, rfl, rfl⟩

theorem chained_search_failures_invisible_witness :
    (do_plan behaviorC9 planC5).failed_actions = 0 ∧
    (do_plan behaviorC9 planC5).errors = [] ∧
    (do_plan behaviorC9 planC5).successful_actions
      = (do_plan behaviorC9 planC5).total_actions ∧
    (do_plan behaviorC9 planC5).collected_news_chunks = [] :=
  chained_search_failures_invisible behaviorC9 planC5
    (by intro tc h; simp [planC5, msqCall] at h; rcases h with h | h <;> simp [h])
    (fun _ => ⟨"Q", rfl⟩)
    (fun _ => ⟨"vector store down", rfl⟩)

/-! ## C10 — which price data gets summarized -/

theorem do_plan_price_summary (b : ToolBehavior) (qp : QueryPlan) :
    (do_plan b qp).price_summary
      = (step3 b qp.intent_type (extractStep b (runPlanLoop b qp.query_plan))).1 := by
  unfold do_plan
  rcases h3p : step3 b qp.intent_type (extractStep b (runPlanLoop b qp.query_plan))
      with ⟨ps, st3⟩
  rcases h4p : step4 b qp.intent_type st3 with ⟨ns, st4⟩
  rcases h5p : step5 b qp.intent_type ps ns st4 with ⟨cs, st5⟩
  simp [h3p, h4p, h5p]

theorem priceSummaryRequest_spec (st : ExecState) (coin : String)
    (rows : List PriceRow) (h : priceSummaryRequest st = some (coin, rows)) :
    coin = st.coin_names_set.head?.getD "UNKNOWN" ∧
    rows ≠ [] ∧
    (assocFind st.collected_coin_prices coin = some rows ∨
      (assocFind st.collected_coin_prices coin = none ∧
       assocFind st.collected_coin_hourly_prices coin = some rows)) := by
  unfold priceSummaryRequest at h
  by_cases hcond :
      (st.collected_coin_prices.isEmpty ∧ st.collected_coin_hourly_prices.isEmpty)
  · rw [if_pos hcond] at h
    cases h
  · rw [if_neg hcond] at h
    dsimp only at h
    rcases hfd : assocFind st.collected_coin_prices
        (st.coin_names_set.head?.getD "UNKNOWN") with _ | rows₁ <;>
      rw [hfd] at h <;> dsimp only at h
    · rcases hfh : assocFind st.collected_coin_hourly_prices
          (st.coin_names_set.head?.getD "UNKNOWN") with _ | rows₂ <;>
        rw [hfh] at h <;> dsimp only at h
      · simp at h
      · by_cases hre : rows₂.isEmpty
        · rw [if_pos hre] at h; cases h
        · rw [if_neg hre] at h
          obtain ⟨hcoin, hrows⟩ := Prod.mk.injEq .. ▸ Option.some.injEq .. ▸ h
          subst hcoin
          subst hrows
          refine ⟨rfl, by simpa using hre, Or.inr ⟨hfd, hfh⟩⟩
    · by_cases hre : rows₁.isEmpty
      · rw [if_pos hre] at h; cases h
      · rw [if_neg hre] at h
        obtain ⟨hcoin, hrows⟩ := Prod.mk.injEq .. ▸ Option.some.injEq .. ▸ h
        subst hcoin
        subst hrows
        refine ⟨rfl, by simpa using hre, Or.inl hfd⟩

/-- C10 is false of the code as stated (see
`price_summary_skipped_counterexample`); what holds instead:
`summarize_price_data` is invoked at most once per plan, and only for the
single coin that heads the collected-coin set (the model's enumeration of
Python's unordered set): whenever Step 3 selects a request `(coin, rows)`,
that coin is the set's head, the rows are exactly that coin's daily bucket
(or, when the coin is absent from the daily map, its hourly bucket), the
rows are nonempty, and `price_summary` is exactly the outcome of the single
`summarize_price_data` invocation on those rows — no other coin's data is
ever summarized, and if the head coin's bucket is empty no price summary is
produced at all. -/
theorem price_summary_single_coin (b : ToolBehavior) (qp : QueryPlan)
    (coin : String) (rows : List PriceRow)
    (h : priceSummaryRequest (extractStep b (runPlanLoop b qp.query_plan))
        = some (coin, rows)) :
    (coin = (extractStep b (runPlanLoop b qp.query_plan)).coin_names_set.head?.getD
        "UNKNOWN" ∧
      rows ≠ [] ∧
      (assocFind (extractStep b (runPlanLoop b qp.query_plan)).collected_coin_prices
          coin = some rows ∨
        (assocFind (extractStep b (runPlanLoop b qp.query_plan)).collected_coin_prices
            coin = none ∧
         assocFind
            (extractStep b (runPlanLoop b qp.query_plan)).collected_coin_hourly_prices
            coin = some rows))) ∧
    (do_plan b qp).price_summary
      = match execute_tool b "summarize_price_data"
            { coin_name := some coin, price_data := rows
            , analysis_focus := some (qp.intent_type ++ " 분석") } with
        | .ok (.text s) => some s
        | _ => none := by
  refine ⟨priceSummaryRequest_spec _ coin rows h, ?_⟩
  rw [do_plan_price_summary]
  unfold step3
  rw [h]
  dsimp only
  rcases hex : execute_tool b "summarize_price_data"
      { coin_name := some coin, price_data := rows
      , analysis_focus := some (qp.intent_type ++ " 분석") } with e | res
  · rfl
  · rcases res with _ | s | _ | _ <;> rfl

theorem price_summary_single_coin_witness :
    (do_plan behaviorC10
        { intent_type := "market_trend", pivot_time := 0
        , query_plan := [gcpCall "BBB"] }).price_summary = some "PRICE SUMMARY" := by
  have h := price_summary_single_coin behaviorC10
      { intent_type := "market_trend", pivot_time := 0
      , query_plan := [gcpCall "BBB"] } "BBB" [priceRow1] (by rfl)
  rw [h.2]
  rfl

/-- C10 as stated is false: with two coins priced successfully — the first
returning zero rows and the second a nonempty series — the executor
summarizes nothing at all (`price_summary = none` although
`summarize_price_data` deterministically succeeds), because the single coin
it picks is the first of the set and that coin's bucket is empty; the
second coin's collected data is simply dropped. -/
theorem price_summary_skipped_counterexample :
    (do_plan behaviorC10 planC10).price_summary = none ∧
    assocFind (do_plan behaviorC10 planC10).collected_coin_prices "BBB"
      = some [priceRow1] ∧
    (do_plan behaviorC10 planC10).errors = [] := by
  exact ⟨rfl, rfl, rfl⟩

/-! ## C7 — session cache TTL behaviour -/

theorem get_session_now (ttl : Nat) (st : RedisState) (sid : String) :
    ((get_session ttl st sid).2).now = st.now := by
  unfold get_session
  rcases hget : redisGet st (session_key sid) with _ | v
  · rfl
  · unfold redisExpire
    rcases hfind : assocFind st.sessions (session_key sid) with _ | ⟨v', e⟩
    · rfl
    · dsimp only
      by_cases hlive : liveAt st.now e
      · rw [if_pos hlive]
      · rw [if_neg hlive]

/-- C7 is false of the code as stated (see
`session_ttl_counterexample`); what holds instead: `get_session` returns
the stored live session or `None` (never a stale expired one, and not a
fresh empty context), `get_session` / `update_context` / `add_message`
refresh the TTL of the key they touch to `now + ttl` — but the history
retrieval `get_messages` performs no write at all, so it refreshes
nothing. -/
theorem session_ttl_amended (ttl : Nat) (st : RedisState) (sid : String) :
    (∀ data e, assocFind st.sessions (session_key sid) = some (data, some e) →
        e ≤ st.now → (get_session ttl st sid).1 = none) ∧
    (∀ data, (get_session ttl st sid).1 = some data →
        assocFind ((get_session ttl st sid).2).sessions (session_key sid)
          = some (data, some (st.now + ttl))) ∧
    (∀ patch, (update_context ttl st sid patch).1 = true →
        ∃ d, assocFind ((update_context ttl st sid patch).2).sessions
            (session_key sid) = some (d, some (st.now + ttl))) ∧
    (∀ role content, ∃ l,
        assocFind ((add_message ttl st sid role content).2).messages
            (messages_key sid) = some (l, some (st.now + ttl))) ∧
    (∀ limit, (get_messages st sid limit).2 = st) := by
  have hget_some : ∀ data, (get_session ttl st sid).1 = some data →
      assocFind ((get_session ttl st sid).2).sessions (session_key sid)
        = some (data, some (st.now + ttl)) := by
    intro data hdata
    unfold get_session at hdata ⊢
    rcases hget : redisGet st (session_key sid) with _ | v <;> rw [hget] at hdata
    · cases hdata
    · obtain rfl : v = data := by simpa using hdata
      unfold redisGet at hget
      rcases hfind : assocFind st.sessions (session_key sid) with _ | ⟨v', e⟩ <;>
        rw [hfind] at hget
      · cases hget
      · dsimp only at hget
        by_cases hlive : liveAt st.now e
        · rw [if_pos hlive] at hget
          obtain rfl : v' = v := by simpa using hget
          dsimp only
          unfold redisExpire
          rw [hfind]
          dsimp only
          rw [if_pos hlive]
          simp [assocFind_assocSet]
        · rw [if_neg hlive] at hget
          cases hget
  refine ⟨?_, hget_some, ?_, ?_, fun _ => rfl⟩
  · intro data e hfind hle
    unfold get_session redisGet
    rw [hfind]
    have hdead : liveAt st.now (some e) = false := by
      simp [liveAt]
      omega
    dsimp only
    rw [hdead]
    rfl
  · intro patch htrue
    unfold update_context at htrue ⊢
    rcases hgs : get_session ttl st sid with ⟨og, st'⟩
    rw [hgs] at htrue
    rcases og with _ | sess
    · simp at htrue
    · dsimp only
      unfold redisSetEx
      have hnow : st'.now = st.now := by
        have h := get_session_now ttl st sid
        rw [hgs] at h
        exact h
      rw [hnow]
      exact ⟨_, assocFind_assocSet _ _ _⟩
  · intro role content
    unfold add_message redisExpireMessages redisRpush
    dsimp only
    rcases hfind : assocFind st.messages (messages_key sid) with _ | ⟨l0, e0⟩
    · simp [assocFind_assocSet, liveAt]
    · rcases e0 with _ | t
      · simp [assocFind_assocSet, liveAt]
      · by_cases hlt : st.now < t
        · simp [hlt, assocFind_assocSet, liveAt]
        · simp [hlt, assocFind_assocSet, liveAt]

theorem session_ttl_amended_witness :
    (get_session 3600
        { now := 10
        , sessions := [(session_key "s", (sessionS, some 5))] } "s").1 = none ∧
    assocFind ((get_session 3600
        { now := 10
        , sessions := [(session_key "s", (sessionS, some 100))] } "s").2).sessions
        (session_key "s") = some (sessionS, some 3610) ∧
    (∃ l, assocFind ((add_message 3600 { now := 10 } "s" "user" "hi").2).messages
        (messages_key "s") = some (l, some 3610)) ∧
    (get_messages { now := 10 } "s" 20).2 = { now := 10 } :=
  ⟨(session_ttl_amended 3600
      { now := 10, sessions := [(session_key "s", (sessionS, some 5))] } "s").1
        sessionS 5 rfl (by decide),
   (session_ttl_amended 3600
      { now := 10, sessions := [(session_key "s", (sessionS, some 100))] } "s").2.1
        sessionS rfl,
   (session_ttl_amended 3600 { now := 10 } "s").2.2.2.1 "user" "hi",
   (session_ttl_amended 3600 { now := 10 } "s").2.2.2.2 20⟩

/-- C7 as stated is false: history retrieval does not refresh the TTL.
After storing one message at time 0 with TTL 3600 and reading the history
at time 100, the entry still expires at 3600, not at 100 + 3600 — and a
`load` of an unknown session returns `None`, not a fresh empty context. -/
theorem session_ttl_counterexample :
    (get_messages stLater "s" 20).1 = [msgHi] ∧
    ¬ (assocFind ((get_messages stLater "s" 20).2).messages (messages_key "s")
        = some ([msgHi], some (stLater.now + 3600))) ∧
    (get_session 3600 { now := 0 } "absent").1 = none := by
  refine ⟨rfl, ?_, rfl⟩
  intro hcontra
  have hval : assocFind ((get_messages stLater "s" 20).2).messages
      (messages_key "s") = some ([msgHi], some 3600) := rfl
  rw [hval] at hcontra
  simp [stLater, stAfterAdd] at hcontra

end CoinNews
